import Mathlib

/-!
Verification development for a browser extension consisting of a content
script (`content.js`, the page Observer) and an MV3 service worker
(`background.js`, the Tab State Registry).  The DOM is embedded as a rose
tree of element records; the scan routine, interception-handler
installation, and the registry's message/lifecycle listeners are embedded
as pure functions over that tree and over explicit state records.
-/

/-- Event handler attached by the content script. -/
inductive Handler where
  | preventDefaults
  | auxOpen (url : String)
deriving DecidableEq

/-- Element tag, restricted to the tags the selectors distinguish. -/
inductive Tag where
  | div
  | a
  | main
  | other
deriving DecidableEq, BEq

/-- Result of `window.getComputedStyle(element)` for the properties read. -/
structure StyleInfo where
  display : String
  visibility : String
  opacity : Option String
deriving DecidableEq

/-- Result of `element.getBoundingClientRect()` for the properties read. -/
structure RectInfo where
  width : Int
  height : Int
deriving DecidableEq

/-- One DOM element.  `style`/`rect` are `Except` so that a throwing
`getComputedStyle` / `getBoundingClientRect` call is representable.
`handledContainer` and `handledAnchor` model
`dataset.bskySavedHandled === '1'` and
`dataset.bskySavedHandledAnchor === '1'`. -/
structure ElemData where
  tag : Tag
  role : Option String := none
  tabindex : Option String := none
  href : Option String := none
  style : Except Unit StyleInfo := .ok ⟨"block", "visible", some "1"⟩
  rect : Except Unit RectInfo := .ok ⟨100, 100⟩
  handledContainer : Bool := false
  handledAnchor : Bool := false
  cursorPointer : Bool := false
  listeners : List (String × Handler) := []

mutual
/-- A DOM subtree: an element and its child list (document order). -/
inductive Dom where
  | mk (data : ElemData) (children : DomList)
/-- A list of sibling DOM subtrees. -/
inductive DomList where
  | nil
  | cons (hd : Dom) (tl : DomList)
end

/-- The element record at the root of a subtree. -/
def Dom.data : Dom → ElemData
  | .mk e _ => e

/-- The child list at the root of a subtree. -/
def Dom.children : Dom → DomList
  | .mk _ cs => cs

/-- Child at index `i` (JS `element.children[i]`). -/
def DomList.idx? : DomList → Nat → Option Dom
  | .nil, _ => none
  | .cons c _, 0 => some c
  | .cons _ t, n + 1 => t.idx? n

/-- Replace the child at index `i`. -/
def DomList.setIdx : DomList → Nat → Dom → DomList
  | .nil, _, _ => .nil
  | .cons _ t, 0, d => .cons d t
  | .cons c t, n + 1, d => .cons c (t.setIdx n d)

/-- Node identified by a path of child indices from a root. -/
def getAt? : Dom → List Nat → Option Dom
  | d, [] => some d
  | .mk _ cs, i :: t =>
    match cs.idx? i with
    | some c => getAt? c t
    | none => none

/-- Apply `f` to the element record at path `p` (identity on a dangling path). -/
def updateAt (f : ElemData → ElemData) : Dom → List Nat → Dom
  | .mk e cs, [] => .mk (f e) cs
  | .mk e cs, i :: t =>
    match cs.idx? i with
    | some c => .mk e (cs.setIdx i (updateAt f c t))
    | none => .mk e cs

/-- Bump the leading index of a path (used to shift sibling paths). -/
def bumpHead : List Nat → List Nat
  | [] => []
  | j :: s => (j + 1) :: s

mutual
/-- Paths of all proper descendants of a node, in document (pre-)order;
this is the traversal order of `querySelectorAll`. -/
def descPaths : Dom → List (List Nat)
  | .mk _ cs => descPathsList cs
/-- Paths of all nodes of a sibling forest, in document order. -/
def descPathsList : DomList → List (List Nat)
  | .nil => []
  | .cons c t =>
    ([] :: descPaths c).map (fun q => 0 :: q) ++ (descPathsList t).map bumpHead
end

/-- Element record at a path, with an inert default off the tree. -/
def dataAtD (d : Dom) (p : List Nat) : ElemData :=
  match getAt? d p with
  | some n => n.data
  | none => { tag := .other }

/-! ## String helpers used by the selectors and the route checks -/

/-- Consume an exact literal from the front of a character list
(returns the remainder), used to model regex literals. -/
def chompLit : List Char → List Char → Option (List Char)
  | [], rest => some rest
  | p :: ps, c :: cs => if p == c then chompLit ps cs else none
  | _ :: _, [] => none

/-- Substring test: does `pat` occur contiguously inside the second list?
(the CSS attribute operator `*=`). -/
def hasSubList (pat : List Char) : List Char → Bool
  | [] => pat.isEmpty
  | c :: t => pat.isPrefixOf (c :: t) || hasSubList pat t

/-- Models `Number(s) === 0` for the strings `getComputedStyle` produces for
`opacity` (a plain CSS number serialization): the empty string converts to 0,
a non-numeric string converts to NaN which is never equal to 0. -/
def jsNumIsZero (s : String) : Bool :=
  let cs := s.toList
  (cs.isEmpty || cs.contains '0') &&
    cs.all (fun c => c == '0' || c == '.') && cs.count '.' ≤ 1

/-! ## content.js: constants, route check, visibility, selectors -/

/-- `const MIDDLE_BUTTON = 1`. -/
def MIDDLE_BUTTON : Int := 1

/-- `window.location`, restricted to the fields the script reads. -/
structure Location where
  hostname : String
  pathname : String
deriving DecidableEq

/-- `location.origin`; the content script only runs on `https:` pages
(`manifest` matches `https://bsky.app/*`). -/
def Location.origin (l : Location) : String := "https://" ++ l.hostname

/-- `isOnSavedPage`: hostname is `bsky.app` and the path starts with `/saved`. -/
def isOnSavedPage (loc : Location) : Bool :=
  loc.hostname == "bsky.app" && "/saved".toList.isPrefixOf loc.pathname.toList

/-- `toAbsoluteUrl`: `new URL(href, location.origin).toString()` for the
root-relative paths the scanner accepts; the `catch` branch returns `href`
unchanged, which is also the result here for a non-relative input. -/
def toAbsoluteUrl (origin href : String) : String :=
  if "/".toList.isPrefixOf href.toList then origin ++ href else href

/-- `isVisible`: hidden when `display:none`, `visibility:hidden` or
`Number(opacity ?? '1') === 0`, else requires a positive-size bounding box;
the surrounding `try`/`catch` returns `true` when either style or rect
computation throws. -/
def isVisible (e : ElemData) : Bool :=
  match e.style with
  | .error _ => true
  | .ok style =>
    if style.display == "none" || style.visibility == "hidden"
        || jsNumIsZero (style.opacity.getD "1") then false
    else
      match e.rect with
      | .error _ => true
      | .ok rect => rect.width > 0 && rect.height > 0

/-- CSS selector `div[role="link"][tabindex]`. -/
def matchesContainer (e : ElemData) : Bool :=
  e.tag == .div && e.role == some "link" && e.tabindex.isSome

/-- CSS selector `main`. -/
def matchesMain (e : ElemData) : Bool :=
  e.tag == .main

/-- `PROFILE_POST_SELECTOR`: CSS `a[href^="/profile/"][href*="/post/"]`. -/
def matchesPostAnchor (e : ElemData) : Bool :=
  e.tag == .a &&
    (match e.href with
     | some h => "/profile/".toList.isPrefixOf h.toList
         && hasSubList "/post/".toList h.toList
     | none => false)

/-- The strict regex guard `/^\/profile\/[^/]+\/post\/[^/]+/.test(href)`. -/
def postHrefTest (href : String) : Bool :=
  match chompLit "/profile/".toList href.toList with
  | none => false
  | some rest =>
    let seg := rest.takeWhile (fun c => c != '/')
    if seg.isEmpty then false
    else
      match chompLit "/post/".toList (rest.drop seg.length) with
      | none => false
      | some rest2 => !(rest2.takeWhile (fun c => c != '/')).isEmpty

/-! ## content.js: the scan routine -/

/-- `document.querySelector('main') ?? document`: path of the first `main`
element in document order, defaulting to the document root. -/
def scopePath (root : Dom) : List Nat :=
  ((descPaths root).find? (fun p => matchesMain (dataAtD root p))).getD []

/-- `scope.querySelectorAll('div[role="link"][tabindex]')`: document-order
paths of all matching proper descendants of the scope node. -/
def containerCandidatePaths (root : Dom) : List (List Nat) :=
  let sp := scopePath root
  match getAt? root sp with
  | none => []
  | some scope =>
    ((descPaths scope).filter
      (fun q => matchesContainer (dataAtD scope q))).map (fun q => sp ++ q)

/-- The strict prefixes of a path: the paths of the node's proper ancestors,
starting at the root. -/
def properPrefixes : List Nat → List (List Nat)
  | [] => []
  | i :: t => [] :: (properPrefixes t).map (fun q => i :: q)

/-- `container.parentElement?.closest('div[role="link"][tabindex]')` is
non-null: some proper ancestor matches the container selector. -/
def properAncestorIsContainer (root : Dom) (p : List Nat) : Bool :=
  (properPrefixes p).any (fun q => matchesContainer (dataAtD root q))

/-- The `topLevelContainers` array: candidate containers that are visible
and are not nested inside another matching container. -/
def topLevelContainerPaths (root : Dom) : List (List Nat) :=
  (containerCandidatePaths root).filter
    (fun p => isVisible (dataAtD root p) && !properAncestorIsContainer root p)

/-- `container.querySelector(PROFILE_POST_SELECTOR)`: path (from the root) of
the first matching proper descendant of the container at `c`. -/
def findAnchorPath (root : Dom) (c : List Nat) : Option (List Nat) :=
  match getAt? root c with
  | none => none
  | some sub =>
    ((descPaths sub).find?
      (fun q => matchesPostAnchor (dataAtD sub q))).map (fun q => c ++ q)

/-- The five capture-phase listeners `ensureAnchorMiddleClick` installs. -/
def middleClickListeners (url : String) : List (String × Handler) :=
  [("pointerdown", .preventDefaults), ("pointerup", .preventDefaults),
   ("mousedown", .preventDefaults), ("mouseup", .preventDefaults),
   ("auxclick", .auxOpen url)]

/-- `ensureAnchorMiddleClick(anchor)`: no-op when the anchor marker is
already set; otherwise set the marker and attach the five listeners with
the anchor's resolved absolute URL. -/
def ensureAnchorMiddleClick (origin : String) (dom : Dom) (a : List Nat) : Dom :=
  if (dataAtD dom a).handledAnchor then dom
  else
    let url := toAbsoluteUrl origin ((dataAtD dom a).href.getD "")
    updateAt (fun e =>
      { e with handledAnchor := true,
               listeners := e.listeners ++ middleClickListeners url }) dom a

/-- `ensureMiddleClick(container, anchor)`: no-op when the container marker
is already set; otherwise set the marker, set `cursor: pointer`, and attach
the five listeners with the anchor's resolved absolute URL. -/
def ensureMiddleClick (origin : String) (dom : Dom) (c a : List Nat) : Dom :=
  if (dataAtD dom c).handledContainer then dom
  else
    let url := toAbsoluteUrl origin ((dataAtD dom a).href.getD "")
    updateAt (fun e =>
      { e with handledContainer := true, cursorPointer := true,
               listeners := e.listeners ++ middleClickListeners url }) dom c

/-- The `for (const container of topLevelContainers)` loop of `scanAndBind`:
threads the (mutated) DOM and the `uniqueHrefs` set, here a duplicate-free
list in insertion order. -/
def scanLoop (origin : String) : Dom → List String → List (List Nat) → Dom × List String
  | dom, hrefs, [] => (dom, hrefs)
  | dom, hrefs, c :: cs =>
    match findAnchorPath dom c with
    | none => scanLoop origin dom hrefs cs
    | some a =>
      let href := (dataAtD dom a).href.getD ""
      if !postHrefTest href then scanLoop origin dom hrefs cs
      else if !isVisible (dataAtD dom a) then scanLoop origin dom hrefs cs
      else
        let hrefs' := if hrefs.contains href then hrefs else hrefs ++ [href]
        let dom1 := ensureAnchorMiddleClick origin dom a
        let dom2 := ensureMiddleClick origin dom1 c a
        scanLoop origin dom2 hrefs' cs

/-- The content script's module-level `state`. -/
structure ObserverState where
  lastReportedCount : Int := -1
  scanTimerPending : Bool := false
deriving DecidableEq

/-- `sendCount`: skip when unchanged from the last report, else record the
count and send a `FOUND_COUNT` message (`some count`); a sending failure is
swallowed by the source's `catch`. -/
def sendCount (st : ObserverState) (count : Int) : ObserverState × Option Int :=
  if st.lastReportedCount == count then (st, none)
  else ({ st with lastReportedCount := count }, some count)

/-- Result of one `scanAndBind` call: observer state, the (possibly
mutated) DOM, and the `FOUND_COUNT` message sent, if any. -/
structure ScanResult where
  st : ObserverState
  dom : Dom
  msg : Option Int

/-- `scanAndBind`: clear the debounce timer; off the `/saved` route report 0
and do nothing else; on the route enumerate top-level containers, run the
binding loop, and report the number of unique hrefs. -/
def scanAndBind (loc : Location) (st0 : ObserverState) (dom : Dom) : ScanResult :=
  let st := { st0 with scanTimerPending := false }
  if !isOnSavedPage loc then
    let r := sendCount st 0
    ⟨r.1, dom, r.2⟩
  else
    let containers := topLevelContainerPaths dom
    let r := scanLoop loc.origin dom [] containers
    let s := sendCount st (r.2.length : Int)
    ⟨s.1, r.1, s.2⟩

/-- `scheduleScan`: schedule a debounced scan unless one is already pending. -/
def scheduleScan (st : ObserverState) : ObserverState :=
  if st.scanTimerPending then st else { st with scanTimerPending := true }

/-- Trigger signals wired up by `initObservers`. -/
inductive TriggerEvent where
  | mutationAdded
  | pageshow
  | popstate
  | focusGained
  | visibilityVisible
  | visibilityHidden
deriving DecidableEq

/-- The `initObservers` listeners: every trigger merely schedules a debounced
scan (a `visibilitychange` to hidden does nothing); none of them touches
`state.lastReportedCount`. -/
def observerTrigger : TriggerEvent → ObserverState → ObserverState
  | .visibilityHidden, st => st
  | .mutationAdded, st => scheduleScan st
  | .pageshow, st => scheduleScan st
  | .popstate, st => scheduleScan st
  | .focusGained, st => scheduleScan st
  | .visibilityVisible, st => scheduleScan st

/-- The `DOMContentLoaded` callback registered by `bootstrap` when the
document is still loading: reset `lastReportedCount` to -1, then schedule. -/
def domContentLoadedCallback (st : ObserverState) : ObserverState :=
  scheduleScan { st with lastReportedCount := -1 }

/-! ## content.js: the interception handlers themselves -/

/-- A mouse event, restricted to what the handlers read;
`hasStopImmediateProp` models whether `stopImmediatePropagation` exists
(the source calls it through optional chaining). -/
structure MouseEvt where
  button : Int
  hasStopImmediateProp : Bool := true
deriving DecidableEq

/-- Observable calls a handler can make. -/
inductive DomEffect where
  | preventDefault
  | stopPropagation
  | stopImmediatePropagation
  | windowOpen (url : String) (target : String) (features : String)
deriving DecidableEq

/-- `preventMiddleClickDefaults`: returns immediately unless the middle
button; otherwise prevents default and stops (immediate) propagation. -/
def preventMiddleClickDefaults (ev : MouseEvt) : List DomEffect :=
  if ev.button ≠ MIDDLE_BUTTON then []
  else [.preventDefault, .stopPropagation] ++
    (if ev.hasStopImmediateProp then [.stopImmediatePropagation] else [])

/-- `handleAuxClick(url)`: returns immediately unless the middle button;
otherwise prevents default, stops propagation, and opens the URL in a new
`noopener` context. -/
def handleAuxClick (url : String) (ev : MouseEvt) : List DomEffect :=
  if ev.button ≠ MIDDLE_BUTTON then []
  else [.preventDefault, .stopPropagation, .windowOpen url "_blank" "noopener"]

/-! ## background.js (Tab State Registry) -/

/-- Indicator state derived from a count. -/
inductive IndicatorState where
  | enabled
  | disabled
deriving DecidableEq

/-- The indicator applied for a tab by `applyIcon`: the icon state and the
text label drawn over the glyph (the rendering itself and the
state-and-label keyed cache are the external asset pipeline). -/
structure IconApplication where
  tabId : Int
  state : IndicatorState
  label : String
deriving DecidableEq

/-- `const MAX_SHOWN_COUNT = 99`. -/
def MAX_SHOWN_COUNT : Int := 99

/-- `limitCountLabel`: the label capped at the display ceiling; zero (and
anything non-positive) shows no label. -/
def limitCountLabel (count : Int := 0) : String :=
  if count > MAX_SHOWN_COUNT then toString MAX_SHOWN_COUNT
  else if count > 0 then toString count else ""

/-- `isSavedUrl`: `/^https:\/\/bsky\.app\/saved/.test(url)`. -/
def isSavedUrl (url : String := "") : Bool :=
  "https://bsky.app/saved".toList.isPrefixOf url.toList

/-- The `tabCounts` map: an association list with `Map.set` replacement
semantics. -/
def mapSet : List (Int × Int) → Int → Int → List (Int × Int)
  | [], k, v => [(k, v)]
  | (k', v') :: t, k, v =>
    if k' == k then (k, v) :: t else (k', v') :: mapSet t k v

/-- `tabCounts.get`. -/
def mapGet : List (Int × Int) → Int → Option Int
  | [], _ => none
  | (k', v') :: t, k => if k' == k then some v' else mapGet t k

/-- The Registry's in-memory state: the `tabCounts` map. -/
structure Registry where
  tabCounts : List (Int × Int) := []
deriving DecidableEq

/-- `applyIcon(tabId, count)`: derive enabled iff `count > 0` and apply the
icon whose label is `limitCountLabel count` and the matching title; failures
of the asynchronous apply are caught and logged in the source. -/
def applyIcon (tabId count : Int) : IconApplication :=
  { tabId := tabId,
    state := if count > 0 then .enabled else .disabled,
    label := limitCountLabel count }

/-- `setTabCount`: store the count unmodified, then apply the icon. -/
def setTabCount (r : Registry) (tabId count : Int) : Registry × IconApplication :=
  ({ tabCounts := mapSet r.tabCounts tabId count }, applyIcon tabId count)

/-- `resetTab`: store 0, then apply the (disabled) icon. -/
def resetTab (r : Registry) (tabId : Int) : Registry × IconApplication :=
  ({ tabCounts := mapSet r.tabCounts tabId 0 }, applyIcon tabId 0)

/-- The `count` field of an incoming message as the listener sees it:
either a finite JS number or anything else (`NaN`, `±Infinity`, `undefined`,
a non-number), for which `Number.isFinite` is false. -/
inductive JsCount where
  | fin (n : Int)
  | notFinite
deriving DecidableEq

/-- `Number.isFinite(message.count) ? Number(message.count) : 0`. -/
def coerceCount : JsCount → Int
  | .fin n => n
  | .notFinite => 0

/-- An incoming runtime message. -/
structure FoundMsg where
  type : String
  count : JsCount
deriving DecidableEq

/-- The `chrome.runtime.onMessage` listener: ignore a message without a
truthy `sender.tab.id` (so also a tab id of 0, which is falsy in JS), a
missing message, or a type other than `FOUND_COUNT`; otherwise coerce the
count and `setTabCount`. -/
def onMessage (r : Registry) (senderTabId : Option Int) (message : Option FoundMsg) :
    Registry × Option IconApplication :=
  match senderTabId, message with
  | some tabId, some m =>
    if tabId == 0 then (r, none)
    else if m.type == "FOUND_COUNT" then
      let s := setTabCount r tabId (coerceCount m.count)
      (s.1, some s.2)
    else (r, none)
  | _, _ => (r, none)

/-- The `chrome.tabs.onActivated` listener.  `fetchedTab` is the result of
`chrome.tabs.get`: `none` when it rejects (the `catch` logs and changes
nothing), otherwise the tab's `url` (itself optional: `tab?.url`).  Off the
saved route the tab is reset; on it the stored count is re-applied. -/
def onActivated (r : Registry) (tabId : Int) (fetchedTab : Option (Option String)) :
    Registry × Option IconApplication :=
  match fetchedTab with
  | none => (r, none)
  | some url =>
    if !isSavedUrl (url.getD "") then
      let s := resetTab r tabId
      (s.1, some s.2)
    else
      let currentCount := (mapGet r.tabCounts tabId).getD 0
      (r, some (applyIcon tabId currentCount))

/-- The `chrome.tabs.onUpdated` listener: reset the tab when it starts
loading or its URL changed. -/
def onUpdated (r : Registry) (tabId : Int) (statusLoading changedUrl : Bool) :
    Registry × Option IconApplication :=
  if statusLoading || changedUrl then
    let s := resetTab r tabId
    (s.1, some s.2)
  else (r, none)

/-! ## Concrete documents used as witnesses -/

/-- Convert a children list literal. -/
def DomList.ofList : List Dom → DomList
  | [] => .nil
  | d :: t => .cons d (DomList.ofList t)

/-- Build a node from an element record and a list of children. -/
def dnode (e : ElemData) (cs : List Dom) : Dom := .mk e (DomList.ofList cs)

/-- A saved-feed card container element. -/
def cardElem : ElemData :=
  { tag := .div, role := some "link", tabindex := some "0" }

/-- A post anchor element with the given href. -/
def postAnchor (h : String) : ElemData :=
  { tag := .a, href := some h }

/-- The monitored location `https://bsky.app/saved`. -/
def savedLoc : Location := ⟨"bsky.app", "/saved"⟩

/-- A document with two top-level cards linking distinct posts. -/
def twoCardDom : Dom :=
  dnode { tag := .other }
    [dnode cardElem [dnode (postAnchor "/profile/a/post/1") []],
     dnode cardElem [dnode (postAnchor "/profile/b/post/2") []]]

/-- A top-level card embedding a quoted card with its own qualifying link. -/
def nestedCardDom : Dom :=
  dnode { tag := .other }
    [dnode cardElem
      [dnode (postAnchor "/profile/a/post/1") [],
       dnode cardElem [dnode (postAnchor "/profile/b/post/2") []]]]

/-- A card and anchor whose style and rect computations both throw. -/
def throwingDom : Dom :=
  dnode { tag := .other }
    [dnode { cardElem with style := .error (), rect := .error () }
      [dnode { postAnchor "/profile/a/post/1" with
                 style := .error (), rect := .error () } []]]

/-- Two top-level cards whose body links resolve to the same resource path. -/
def dupCardDom : Dom :=
  dnode { tag := .other }
    [dnode cardElem [dnode (postAnchor "/profile/a/post/1") []],
     dnode cardElem [dnode (postAnchor "/profile/a/post/1") []]]

/-! ## Tree lemmas: mapping, updating, and path validity -/

mutual
/-- Map an element-record transformation over a whole tree. -/
def dmap (f : ElemData → ElemData) : Dom → Dom
  | .mk e cs => .mk (f e) (dmapList f cs)
/-- Map an element-record transformation over a sibling forest. -/
def dmapList (f : ElemData → ElemData) : DomList → DomList
  | .nil => .nil
  | .cons c t => .cons (dmap f c) (dmapList f t)
end

/-- Erase the fields the scan mutates (markers, cursor, listeners); two
trees with the same `dmap scrub` image present the same data to every read
the scan performs. -/
def scrub (e : ElemData) : ElemData :=
  { e with handledContainer := false, handledAnchor := false,
           cursorPointer := false, listeners := [] }

/-- Scan-equivalence: equal trees after erasing the mutated fields. -/
def sEq (d d' : Dom) : Prop := dmap scrub d = dmap scrub d'

/-- The node a non-empty path addresses inside a sibling forest. -/
def getFromList (cs : DomList) : List Nat → Option Dom
  | [] => none
  | i :: t =>
    match cs.idx? i with
    | some c => getAt? c t
    | none => none

/-- `Set.prototype.add` on a duplicate-free insertion-order list. -/
def insertUnique (hs : List String) (h : String) : List String :=
  if hs.contains h then hs else hs ++ [h]

/-- The anchor accepted for a container in a fixed snapshot: its first
matching descendant link when it also passes the strict pattern check and
the visibility check. -/
def acceptedAnchor (root : Dom) (c : List Nat) : Option (List Nat) :=
  match findAnchorPath root c with
  | none => none
  | some a =>
    if postHrefTest ((dataAtD root a).href.getD "") && isVisible (dataAtD root a)
    then some a else none

/-- The resource path a container contributes in a fixed snapshot. -/
def acceptedHref (root : Dom) (c : List Nat) : Option String :=
  (acceptedAnchor root c).map (fun a => (dataAtD root a).href.getD "")

/-- All resource paths discovered in one pass over a fixed snapshot
(per top-level container, duplicates retained). -/
def acceptedHrefList (root : Dom) : List String :=
  (topLevelContainerPaths root).filterMap (acceptedHref root)

/-- The `uniqueHrefs` accumulation of the loop, computed against a fixed
snapshot. -/
def collectPure (d0 : Dom) : List String → List (List Nat) → List String
  | hs, [] => hs
  | hs, c :: cs =>
    match acceptedHref d0 c with
    | some h => collectPure d0 (insertUnique hs h) cs
    | none => collectPure d0 hs cs

theorem sEq_refl (d : Dom) : sEq d d := rfl

theorem sEq_trans {a b c : Dom} (h1 : sEq a b) (h2 : sEq b c) : sEq a c :=
  h1.trans h2

theorem idx?_dmapList (f : ElemData → ElemData) : ∀ (cs : DomList) (i : Nat),
    (dmapList f cs).idx? i = (cs.idx? i).map (dmap f)
  | .nil, _ => rfl
  | .cons _ _, 0 => rfl
  | .cons _ t, n + 1 => idx?_dmapList f t n

theorem idx?_setIdx_self : ∀ (cs : DomList) (i : Nat) (c c' : Dom),
    cs.idx? i = some c → (cs.setIdx i c').idx? i = some c'
  | .nil, _, _, _, h => by cases h
  | .cons _ _, 0, _, _, _ => rfl
  | .cons _ t, n + 1, c, c', h => idx?_setIdx_self t n c c' h

theorem idx?_setIdx_ne : ∀ (cs : DomList) (i j : Nat) (c' : Dom), i ≠ j →
    (cs.setIdx i c').idx? j = cs.idx? j
  | .nil, _, _, _, _ => rfl
  | .cons _ _, 0, 0, _, h => absurd rfl h
  | .cons _ _, 0, _ + 1, _, _ => rfl
  | .cons _ _, _ + 1, 0, _, _ => rfl
  | .cons _ t, i + 1, j + 1, c', h =>
    idx?_setIdx_ne t i j c' (fun hh => h (by rw [hh]))

theorem dmapList_setIdx (f : ElemData → ElemData) :
    ∀ (cs : DomList) (i : Nat) (c c' : Dom),
    cs.idx? i = some c → dmap f c' = dmap f c →
    dmapList f (cs.setIdx i c') = dmapList f cs
  | .nil, _, _, _, h, _ => by cases h
  | .cons a t, 0, c, c', h, hc => by
    cases h
    simp only [DomList.setIdx, dmapList]
    rw [hc]
  | .cons a t, n + 1, c, c', h, hc => by
    simp only [DomList.setIdx, dmapList]
    rw [dmapList_setIdx f t n c c' h hc]

theorem getAt?_dmap (f : ElemData → ElemData) : ∀ (p : List Nat) (d : Dom),
    getAt? (dmap f d) p = (getAt? d p).map (dmap f)
  | [], .mk _ _ => rfl
  | i :: t, .mk e cs => by
    simp only [dmap, getAt?, idx?_dmapList f cs i]
    cases cs.idx? i with
    | none => rfl
    | some c => exact getAt?_dmap f t c

theorem getAt?_append : ∀ (p q : List Nat) (d : Dom),
    getAt? d (p ++ q) = (getAt? d p).bind (fun s => getAt? s q)
  | [], _, .mk _ _ => rfl
  | i :: t, q, .mk e cs => by
    simp only [List.cons_append, getAt?]
    cases cs.idx? i with
    | none => rfl
    | some c => exact getAt?_append t q c

theorem scrub_default : scrub { tag := .other } = { tag := .other } := rfl

theorem dataAtD_dmap_scrub (d : Dom) (p : List Nat) :
    dataAtD (dmap scrub d) p = scrub (dataAtD d p) := by
  unfold dataAtD
  rw [getAt?_dmap]
  cases getAt? d p with
  | none => rfl
  | some n => cases n; rfl

theorem dmap_updateAt (f g : ElemData → ElemData) (hfg : ∀ e, f (g e) = f e) :
    ∀ (p : List Nat) (d : Dom), dmap f (updateAt g d p) = dmap f d
  | [], .mk e cs => by simp only [updateAt, dmap, hfg e]
  | i :: t, .mk e cs => by
    simp only [updateAt]
    cases h : cs.idx? i with
    | none => rfl
    | some c =>
      simp only [dmap]
      rw [dmapList_setIdx f cs i c _ h (dmap_updateAt f g hfg t c)]

mutual
theorem descPaths_dmap (f : ElemData → ElemData) : ∀ (d : Dom),
    descPaths (dmap f d) = descPaths d
  | .mk _ cs => by
    simp only [dmap, descPaths]
    exact descPathsList_dmapList f cs
theorem descPathsList_dmapList (f : ElemData → ElemData) : ∀ (cs : DomList),
    descPathsList (dmapList f cs) = descPathsList cs
  | .nil => rfl
  | .cons c t => by
    simp only [dmapList, descPathsList]
    rw [descPaths_dmap f c, descPathsList_dmapList f t]
end

theorem dataAtD_updateAt_or (f : ElemData → ElemData) :
    ∀ (p q : List Nat) (d : Dom),
    dataAtD (updateAt f d p) q = dataAtD d q ∨
      dataAtD (updateAt f d p) q = f (dataAtD d q)
  | [], [], .mk e cs => by
    right; rfl
  | [], j :: s, .mk e cs => by
    left; rfl
  | i :: t, q, .mk e cs => by
    cases hc : cs.idx? i with
    | none => left; simp only [updateAt, hc]
    | some c =>
      simp only [updateAt, hc]
      match q with
      | [] => left; rfl
      | j :: s =>
        by_cases hij : i = j
        · subst hij
          have h1 : dataAtD (Dom.mk e (cs.setIdx i (updateAt f c t))) (i :: s)
              = dataAtD (updateAt f c t) s := by
            simp only [dataAtD, getAt?, idx?_setIdx_self cs i c _ hc]
          have h2 : dataAtD (Dom.mk e cs) (i :: s) = dataAtD c s := by
            simp only [dataAtD, getAt?, hc]
          rw [h1, h2]
          exact dataAtD_updateAt_or f t s c
        · left
          simp only [dataAtD, getAt?, idx?_setIdx_ne cs i j _ hij]

theorem dataAtD_updateAt_self (f : ElemData → ElemData) :
    ∀ (p : List Nat) (d : Dom), (getAt? d p).isSome →
    dataAtD (updateAt f d p) p = f (dataAtD d p)
  | [], .mk e cs, _ => rfl
  | i :: t, .mk e cs, h => by
    cases hc : cs.idx? i with
    | none => simp only [getAt?, hc] at h; cases h
    | some c =>
      have h' : (getAt? c t).isSome := by
        simpa only [getAt?, hc] using h
      have h1 : dataAtD (updateAt f (Dom.mk e cs) (i :: t)) (i :: t)
          = dataAtD (updateAt f c t) t := by
        simp only [updateAt, hc, dataAtD, getAt?, idx?_setIdx_self cs i c _ hc]
      have h2 : dataAtD (Dom.mk e cs) (i :: t) = dataAtD c t := by
        simp only [dataAtD, getAt?, hc]
      rw [h1, h2]
      exact dataAtD_updateAt_self f t c h'

theorem getAt?_mk_cons (e : ElemData) (cs : DomList) (i : Nat) (t : List Nat) :
    getAt? (.mk e cs) (i :: t) = getFromList cs (i :: t) := rfl

mutual
theorem valid_descPaths : ∀ (d : Dom) (q : List Nat),
    q ∈ descPaths d → (getAt? d q).isSome
  | .mk e cs, q, h => by
    match q with
    | [] => simp [getAt?]
    | i :: t =>
      rw [getAt?_mk_cons]
      exact valid_descPathsList cs (i :: t) h
theorem valid_descPathsList : ∀ (cs : DomList) (q : List Nat),
    q ∈ descPathsList cs → (getFromList cs q).isSome
  | .nil, q, h => by simp [descPathsList] at h
  | .cons c t, q, h => by
    simp only [descPathsList, List.mem_append, List.mem_map] at h
    rcases h with ⟨q', hq', rfl⟩ | ⟨q'', hq'', rfl⟩
    · rcases List.mem_cons.mp hq' with rfl | hq'
      · simp [getFromList, DomList.idx?, getAt?]
      · simpa [getFromList, DomList.idx?] using valid_descPaths c q' hq'
    · have ih := valid_descPathsList t q'' hq''
      match q'' with
      | [] => simp [getFromList] at ih
      | j :: s =>
        simpa [bumpHead, getFromList, DomList.idx?] using ih
end

/-! ## Read invariance: the scan's reads only depend on the scrubbed tree -/

theorem matchesContainer_scrub (e : ElemData) :
    matchesContainer (scrub e) = matchesContainer e := rfl

theorem matchesMain_scrub (e : ElemData) :
    matchesMain (scrub e) = matchesMain e := rfl

theorem matchesPostAnchor_scrub (e : ElemData) :
    matchesPostAnchor (scrub e) = matchesPostAnchor e := rfl

theorem isVisible_scrub (e : ElemData) : isVisible (scrub e) = isVisible e := rfl

theorem href_scrub (e : ElemData) : (scrub e).href = e.href := rfl

theorem descPaths_sEq {d d' : Dom} (h : sEq d d') : descPaths d = descPaths d' := by
  rw [← descPaths_dmap scrub d, h, descPaths_dmap]

theorem scrub_dataAtD_sEq {d d' : Dom} (h : sEq d d') (p : List Nat) :
    scrub (dataAtD d p) = scrub (dataAtD d' p) := by
  rw [← dataAtD_dmap_scrub, h, dataAtD_dmap_scrub]

theorem getAt?_sEq {d d' : Dom} (h : sEq d d') (p : List Nat) :
    (getAt? d p).map (dmap scrub) = (getAt? d' p).map (dmap scrub) := by
  rw [← getAt?_dmap, h, getAt?_dmap]

theorem matchesMain_dataAtD_sEq {d d' : Dom} (h : sEq d d') (p : List Nat) :
    matchesMain (dataAtD d p) = matchesMain (dataAtD d' p) := by
  rw [← matchesMain_scrub, scrub_dataAtD_sEq h, matchesMain_scrub]

theorem matchesContainer_dataAtD_sEq {d d' : Dom} (h : sEq d d') (p : List Nat) :
    matchesContainer (dataAtD d p) = matchesContainer (dataAtD d' p) := by
  rw [← matchesContainer_scrub, scrub_dataAtD_sEq h, matchesContainer_scrub]

theorem matchesPostAnchor_dataAtD_sEq {d d' : Dom} (h : sEq d d') (p : List Nat) :
    matchesPostAnchor (dataAtD d p) = matchesPostAnchor (dataAtD d' p) := by
  rw [← matchesPostAnchor_scrub, scrub_dataAtD_sEq h, matchesPostAnchor_scrub]

theorem isVisible_dataAtD_sEq {d d' : Dom} (h : sEq d d') (p : List Nat) :
    isVisible (dataAtD d p) = isVisible (dataAtD d' p) := by
  rw [← isVisible_scrub, scrub_dataAtD_sEq h, isVisible_scrub]

theorem href_dataAtD_sEq {d d' : Dom} (h : sEq d d') (p : List Nat) :
    (dataAtD d p).href = (dataAtD d' p).href := by
  rw [← href_scrub, scrub_dataAtD_sEq h, href_scrub]

theorem scopePath_sEq {d d' : Dom} (h : sEq d d') : scopePath d = scopePath d' := by
  unfold scopePath
  have hf : (fun p => matchesMain (dataAtD d p))
      = (fun p => matchesMain (dataAtD d' p)) :=
    funext (fun p => matchesMain_dataAtD_sEq h p)
  rw [descPaths_sEq h, hf]

theorem getAt?_sEq_rel {d d' : Dom} (h : sEq d d') (p : List Nat) :
    (getAt? d p = none ∧ getAt? d' p = none) ∨
      ∃ s s', getAt? d p = some s ∧ getAt? d' p = some s' ∧ sEq s s' := by
  have hg := getAt?_sEq h p
  cases h1 : getAt? d p with
  | none =>
    cases h2 : getAt? d' p with
    | none => exact Or.inl ⟨rfl, rfl⟩
    | some s' => rw [h1, h2] at hg; cases hg
  | some s =>
    cases h2 : getAt? d' p with
    | none => rw [h1, h2] at hg; cases hg
    | some s' =>
      rw [h1, h2] at hg
      exact Or.inr ⟨s, s', rfl, rfl, Option.some.inj hg⟩

theorem containerCandidatePaths_sEq {d d' : Dom} (h : sEq d d') :
    containerCandidatePaths d = containerCandidatePaths d' := by
  simp only [containerCandidatePaths]
  rw [scopePath_sEq h]
  rcases getAt?_sEq_rel h (scopePath d') with ⟨h1, h2⟩ | ⟨s, s', h1, h2, hs⟩
  · simp only [h1, h2]
  · simp only [h1, h2]
    have hf : (fun q => matchesContainer (dataAtD s q))
        = (fun q => matchesContainer (dataAtD s' q)) :=
      funext (fun q => matchesContainer_dataAtD_sEq hs q)
    rw [descPaths_sEq hs, hf]

theorem properAncestorIsContainer_sEq {d d' : Dom} (h : sEq d d') (p : List Nat) :
    properAncestorIsContainer d p = properAncestorIsContainer d' p := by
  unfold properAncestorIsContainer
  have hf : (fun q => matchesContainer (dataAtD d q))
      = (fun q => matchesContainer (dataAtD d' q)) :=
    funext (fun q => matchesContainer_dataAtD_sEq h q)
  rw [hf]

theorem topLevelContainerPaths_sEq {d d' : Dom} (h : sEq d d') :
    topLevelContainerPaths d = topLevelContainerPaths d' := by
  unfold topLevelContainerPaths
  have hf : (fun p => isVisible (dataAtD d p) && !properAncestorIsContainer d p)
      = (fun p => isVisible (dataAtD d' p) && !properAncestorIsContainer d' p) :=
    funext (fun p => by
      rw [isVisible_dataAtD_sEq h, properAncestorIsContainer_sEq h])
  rw [containerCandidatePaths_sEq h, hf]

theorem findAnchorPath_sEq {d d' : Dom} (h : sEq d d') (c : List Nat) :
    findAnchorPath d c = findAnchorPath d' c := by
  unfold findAnchorPath
  rcases getAt?_sEq_rel h c with ⟨h1, h2⟩ | ⟨s, s', h1, h2, hs⟩
  · simp only [h1, h2]
  · simp only [h1, h2]
    have hf : (fun q => matchesPostAnchor (dataAtD s q))
        = (fun q => matchesPostAnchor (dataAtD s' q)) :=
      funext (fun q => matchesPostAnchor_dataAtD_sEq hs q)
    rw [descPaths_sEq hs, hf]

/-! ## The loop characterized against a fixed snapshot -/

theorem acceptedHref_sEq {d d' : Dom} (h : sEq d d') (c : List Nat) :
    acceptedHref d c = acceptedHref d' c := by
  unfold acceptedHref acceptedAnchor
  rw [findAnchorPath_sEq h c]
  cases hA : findAnchorPath d' c with
  | none => rfl
  | some a =>
    have hf : (fun x => (dataAtD d x).href.getD "")
        = (fun x => (dataAtD d' x).href.getD "") :=
      funext (fun x => by rw [href_dataAtD_sEq h x])
    simp only [href_dataAtD_sEq h a, isVisible_dataAtD_sEq h a, hf]

theorem collectPure_sEq {d d' : Dom} (h : sEq d d') :
    ∀ (cs : List (List Nat)) (hs : List String),
    collectPure d hs cs = collectPure d' hs cs
  | [], _ => rfl
  | c :: cs, hs => by
    simp only [collectPure, acceptedHref_sEq h c]
    cases acceptedHref d' c with
    | none => exact collectPure_sEq h cs hs
    | some x => exact collectPure_sEq h cs (insertUnique hs x)

theorem sEq_ensureAnchorMiddleClick (o : String) (d : Dom) (a : List Nat) :
    sEq (ensureAnchorMiddleClick o d a) d := by
  unfold ensureAnchorMiddleClick
  split
  · exact sEq_refl d
  · have hg : ∀ e : ElemData, scrub { e with handledAnchor := true, listeners := e.listeners ++ middleClickListeners (toAbsoluteUrl o ((dataAtD d a).href.getD "")) } = scrub e :=
      fun e => rfl
    exact dmap_updateAt scrub _ hg a d

theorem sEq_ensureMiddleClick (o : String) (d : Dom) (c a : List Nat) :
    sEq (ensureMiddleClick o d c a) d := by
  unfold ensureMiddleClick
  split
  · exact sEq_refl d
  · have hg : ∀ e : ElemData, scrub { e with handledContainer := true, cursorPointer := true, listeners := e.listeners ++ middleClickListeners (toAbsoluteUrl o ((dataAtD d a).href.getD "")) } = scrub e :=
      fun e => rfl
    exact dmap_updateAt scrub _ hg c d

theorem scanLoop_spec (o : String) (dom0 : Dom) :
    ∀ (cs : List (List Nat)) (dom : Dom) (hs : List String), sEq dom dom0 →
    sEq (scanLoop o dom hs cs).1 dom0 ∧
      (scanLoop o dom hs cs).2 = collectPure dom0 hs cs
  | [], dom, hs, h => ⟨h, rfl⟩
  | c :: cs, dom, hs, h => by
    have hfind : findAnchorPath dom c = findAnchorPath dom0 c :=
      findAnchorPath_sEq h c
    cases hA : findAnchorPath dom0 c with
    | none =>
      have hstep : scanLoop o dom hs (c :: cs) = scanLoop o dom hs cs := by
        simp only [scanLoop, hfind, hA]
      have hacc : acceptedHref dom0 c = none := by
        simp [acceptedHref, acceptedAnchor, hA]
      have hpure : collectPure dom0 hs (c :: cs) = collectPure dom0 hs cs := by
        simp only [collectPure, hacc]
      rw [hstep, hpure]
      exact scanLoop_spec o dom0 cs dom hs h
    | some a =>
      have hhref : (dataAtD dom a).href = (dataAtD dom0 a).href :=
        href_dataAtD_sEq h a
      have hvis : isVisible (dataAtD dom a) = isVisible (dataAtD dom0 a) :=
        isVisible_dataAtD_sEq h a
      by_cases hT : postHrefTest ((dataAtD dom0 a).href.getD "") = true
      · by_cases hV : isVisible (dataAtD dom0 a) = true
        · -- accepted: the loop marks and records, the pure side inserts
          have hacc : acceptedHref dom0 c = some ((dataAtD dom0 a).href.getD "") := by
            simp [acceptedHref, acceptedAnchor, hA, hT, hV]
          have hstep : scanLoop o dom hs (c :: cs) =
              scanLoop o (ensureMiddleClick o (ensureAnchorMiddleClick o dom a) c a)
                (insertUnique hs ((dataAtD dom0 a).href.getD "")) cs := by
            simp only [scanLoop, hfind, hA, hhref, hvis, hT, hV, insertUnique,
              Bool.not_true, Bool.false_eq_true, if_false]
          have hpure : collectPure dom0 hs (c :: cs) =
              collectPure dom0 (insertUnique hs ((dataAtD dom0 a).href.getD "")) cs := by
            simp only [collectPure, hacc]
          rw [hstep, hpure]
          exact scanLoop_spec o dom0 cs _ _
            (sEq_trans (sEq_ensureMiddleClick o _ c a)
              (sEq_trans (sEq_ensureAnchorMiddleClick o dom a) h))
        · have hacc : acceptedHref dom0 c = none := by
            simp [acceptedHref, acceptedAnchor, hA, hT, hV]
          have hstep : scanLoop o dom hs (c :: cs) = scanLoop o dom hs cs := by
            simp only [scanLoop, hfind, hA, hhref, hvis]
            simp [hT, hV]
          have hpure : collectPure dom0 hs (c :: cs) = collectPure dom0 hs cs := by
            simp only [collectPure, hacc]
          rw [hstep, hpure]
          exact scanLoop_spec o dom0 cs dom hs h
      · have hacc : acceptedHref dom0 c = none := by
          simp [acceptedHref, acceptedAnchor, hA, hT]
        have hstep : scanLoop o dom hs (c :: cs) = scanLoop o dom hs cs := by
          simp only [scanLoop, hfind, hA, hhref, hvis]
          simp [hT]
        have hpure : collectPure dom0 hs (c :: cs) = collectPure dom0 hs cs := by
          simp only [collectPure, hacc]
        rw [hstep, hpure]
        exact scanLoop_spec o dom0 cs dom hs h

/-! ## Handled-element markers: monotone, set by the loop, make it a no-op -/

theorem getAt?_isSome_sEq {d d' : Dom} (h : sEq d d') (p : List Nat) :
    (getAt? d p).isSome = (getAt? d' p).isSome := by
  rcases getAt?_sEq_rel h p with ⟨h1, h2⟩ | ⟨s, s', h1, h2, _⟩ <;> simp [h1, h2]

theorem handledAnchor_updateAt_mono (f : ElemData → ElemData)
    (hf : ∀ e, e.handledAnchor = true → (f e).handledAnchor = true)
    (p q : List Nat) (d : Dom) (h : (dataAtD d q).handledAnchor = true) :
    (dataAtD (updateAt f d p) q).handledAnchor = true := by
  rcases dataAtD_updateAt_or f p q d with h1 | h1
  · rw [h1]; exact h
  · rw [h1]; exact hf _ h

theorem handledContainer_updateAt_mono (f : ElemData → ElemData)
    (hf : ∀ e, e.handledContainer = true → (f e).handledContainer = true)
    (p q : List Nat) (d : Dom) (h : (dataAtD d q).handledContainer = true) :
    (dataAtD (updateAt f d p) q).handledContainer = true := by
  rcases dataAtD_updateAt_or f p q d with h1 | h1
  · rw [h1]; exact h
  · rw [h1]; exact hf _ h

theorem handledAnchor_ensureAnchorMiddleClick_mono (o : String) (d : Dom)
    (a q : List Nat) (h : (dataAtD d q).handledAnchor = true) :
    (dataAtD (ensureAnchorMiddleClick o d a) q).handledAnchor = true := by
  unfold ensureAnchorMiddleClick
  split
  · exact h
  · exact handledAnchor_updateAt_mono _ (fun e _ => rfl) a q d h

theorem handledAnchor_ensureMiddleClick_mono (o : String) (d : Dom)
    (c a q : List Nat) (h : (dataAtD d q).handledAnchor = true) :
    (dataAtD (ensureMiddleClick o d c a) q).handledAnchor = true := by
  unfold ensureMiddleClick
  split
  · exact h
  · exact handledAnchor_updateAt_mono
      (fun e => { e with handledContainer := true, cursorPointer := true, listeners := e.listeners ++ middleClickListeners (toAbsoluteUrl o ((dataAtD d a).href.getD "")) })
      (fun e he => he) c q d h

theorem handledContainer_ensureAnchorMiddleClick_mono (o : String) (d : Dom)
    (a q : List Nat) (h : (dataAtD d q).handledContainer = true) :
    (dataAtD (ensureAnchorMiddleClick o d a) q).handledContainer = true := by
  unfold ensureAnchorMiddleClick
  split
  · exact h
  · exact handledContainer_updateAt_mono
      (fun e => { e with handledAnchor := true, listeners := e.listeners ++ middleClickListeners (toAbsoluteUrl o ((dataAtD d a).href.getD "")) })
      (fun e he => he) a q d h

theorem handledContainer_ensureMiddleClick_mono (o : String) (d : Dom)
    (c a q : List Nat) (h : (dataAtD d q).handledContainer = true) :
    (dataAtD (ensureMiddleClick o d c a) q).handledContainer = true := by
  unfold ensureMiddleClick
  split
  · exact h
  · exact handledContainer_updateAt_mono _ (fun e _ => rfl) c q d h

theorem handledAnchor_after_ensureAnchorMiddleClick (o : String) (d : Dom)
    (a : List Nat) (hv : (getAt? d a).isSome) :
    (dataAtD (ensureAnchorMiddleClick o d a) a).handledAnchor = true := by
  unfold ensureAnchorMiddleClick
  split
  · assumption
  · rw [dataAtD_updateAt_self _ a d hv]

theorem handledContainer_after_ensureMiddleClick (o : String) (d : Dom)
    (c a : List Nat) (hv : (getAt? d c).isSome) :
    (dataAtD (ensureMiddleClick o d c a) c).handledContainer = true := by
  unfold ensureMiddleClick
  split
  · assumption
  · rw [dataAtD_updateAt_self _ c d hv]

theorem scanLoop_handledAnchor_mono (o : String) :
    ∀ (cs : List (List Nat)) (dom : Dom) (hs : List String) (q : List Nat),
    (dataAtD dom q).handledAnchor = true →
    (dataAtD (scanLoop o dom hs cs).1 q).handledAnchor = true
  | [], _, _, _, h => h
  | c :: cs, dom, hs, q, h => by
    cases hF : findAnchorPath dom c with
    | none =>
      have hstep : scanLoop o dom hs (c :: cs) = scanLoop o dom hs cs := by
        simp only [scanLoop, hF]
      rw [hstep]
      exact scanLoop_handledAnchor_mono o cs dom hs q h
    | some a =>
      by_cases hT : (!postHrefTest ((dataAtD dom a).href.getD "")) = true
      · have hstep : scanLoop o dom hs (c :: cs) = scanLoop o dom hs cs := by
          simp only [scanLoop, hF, if_pos hT]
        rw [hstep]
        exact scanLoop_handledAnchor_mono o cs dom hs q h
      · by_cases hV : (!isVisible (dataAtD dom a)) = true
        · have hstep : scanLoop o dom hs (c :: cs) = scanLoop o dom hs cs := by
            simp only [scanLoop, hF, if_neg hT, if_pos hV]
          rw [hstep]
          exact scanLoop_handledAnchor_mono o cs dom hs q h
        · have hstep : scanLoop o dom hs (c :: cs) =
              scanLoop o (ensureMiddleClick o (ensureAnchorMiddleClick o dom a) c a)
                (if hs.contains ((dataAtD dom a).href.getD "") = true then hs else hs ++ [(dataAtD dom a).href.getD ""]) cs := by
            simp only [scanLoop, hF, if_neg hT, if_neg hV]
          rw [hstep]
          exact scanLoop_handledAnchor_mono o cs _ _ q
            (handledAnchor_ensureMiddleClick_mono o _ c a q
              (handledAnchor_ensureAnchorMiddleClick_mono o dom a q h))

theorem scanLoop_handledContainer_mono (o : String) :
    ∀ (cs : List (List Nat)) (dom : Dom) (hs : List String) (q : List Nat),
    (dataAtD dom q).handledContainer = true →
    (dataAtD (scanLoop o dom hs cs).1 q).handledContainer = true
  | [], _, _, _, h => h
  | c :: cs, dom, hs, q, h => by
    cases hF : findAnchorPath dom c with
    | none =>
      have hstep : scanLoop o dom hs (c :: cs) = scanLoop o dom hs cs := by
        simp only [scanLoop, hF]
      rw [hstep]
      exact scanLoop_handledContainer_mono o cs dom hs q h
    | some a =>
      by_cases hT : (!postHrefTest ((dataAtD dom a).href.getD "")) = true
      · have hstep : scanLoop o dom hs (c :: cs) = scanLoop o dom hs cs := by
          simp only [scanLoop, hF, if_pos hT]
        rw [hstep]
        exact scanLoop_handledContainer_mono o cs dom hs q h
      · by_cases hV : (!isVisible (dataAtD dom a)) = true
        · have hstep : scanLoop o dom hs (c :: cs) = scanLoop o dom hs cs := by
            simp only [scanLoop, hF, if_neg hT, if_pos hV]
          rw [hstep]
          exact scanLoop_handledContainer_mono o cs dom hs q h
        · have hstep : scanLoop o dom hs (c :: cs) =
              scanLoop o (ensureMiddleClick o (ensureAnchorMiddleClick o dom a) c a)
                (if hs.contains ((dataAtD dom a).href.getD "") = true then hs else hs ++ [(dataAtD dom a).href.getD ""]) cs := by
            simp only [scanLoop, hF, if_neg hT, if_neg hV]
          rw [hstep]
          exact scanLoop_handledContainer_mono o cs _ _ q
            (handledContainer_ensureMiddleClick_mono o _ c a q
              (handledContainer_ensureAnchorMiddleClick_mono o dom a q h))

/-! ## Accepted pairs are valid paths; the loop marks them; marked input is a fixpoint -/

theorem findAnchorPath_valid (dom0 : Dom) (c a : List Nat)
    (hF : findAnchorPath dom0 c = some a) : (getAt? dom0 a).isSome := by
  unfold findAnchorPath at hF
  cases hg : getAt? dom0 c with
  | none => simp only [hg] at hF; exact Option.noConfusion hF
  | some sub =>
    simp only [hg] at hF
    cases hfind : (descPaths sub).find? (fun q => matchesPostAnchor (dataAtD sub q)) with
    | none => simp only [hfind, Option.map_none'] at hF; exact Option.noConfusion hF
    | some q =>
      simp only [hfind, Option.map_some'] at hF
      obtain rfl : c ++ q = a := Option.some.inj hF
      have hq := valid_descPaths sub q (List.mem_of_find?_eq_some hfind)
      rw [getAt?_append, hg]
      simpa using hq

theorem acceptedAnchor_spec (dom0 : Dom) (c a : List Nat)
    (hA : acceptedAnchor dom0 c = some a) :
    findAnchorPath dom0 c = some a ∧
      postHrefTest ((dataAtD dom0 a).href.getD "") = true ∧
      isVisible (dataAtD dom0 a) = true := by
  unfold acceptedAnchor at hA
  cases hF : findAnchorPath dom0 c with
  | none => simp only [hF] at hA; exact Option.noConfusion hA
  | some a' =>
    simp only [hF] at hA
    by_cases hcnd : (postHrefTest ((dataAtD dom0 a').href.getD "")
        && isVisible (dataAtD dom0 a')) = true
    · rw [if_pos hcnd] at hA
      obtain rfl : a' = a := by simpa using hA
      rcases Bool.and_eq_true_iff.mp hcnd with ⟨h1, h2⟩
      exact ⟨rfl, h1, h2⟩
    · rw [if_neg hcnd] at hA
      cases hA

theorem topLevel_valid (dom0 : Dom) (c : List Nat)
    (hc : c ∈ topLevelContainerPaths dom0) : (getAt? dom0 c).isSome := by
  have hc1 : c ∈ containerCandidatePaths dom0 :=
    (List.mem_filter.mp hc).1
  simp only [containerCandidatePaths] at hc1
  cases hg : getAt? dom0 (scopePath dom0) with
  | none => simp only [hg] at hc1; cases hc1
  | some scope =>
    simp only [hg, List.mem_map] at hc1
    obtain ⟨q, hq, rfl⟩ := hc1
    have hmem : q ∈ descPaths scope := (List.mem_filter.mp hq).1
    have hq' := valid_descPaths scope q hmem
    rw [getAt?_append, hg]
    simpa using hq'

theorem scanLoop_cons_exists (o : String) (c : List Nat) (cs : List (List Nat))
    (dom : Dom) (hs : List String) :
    ∃ dom' hs', sEq dom' dom ∧
      scanLoop o dom hs (c :: cs) = scanLoop o dom' hs' cs := by
  cases hF : findAnchorPath dom c with
  | none => exact ⟨dom, hs, sEq_refl dom, by simp only [scanLoop, hF]⟩
  | some a =>
    by_cases hT : (!postHrefTest ((dataAtD dom a).href.getD "")) = true
    · exact ⟨dom, hs, sEq_refl dom, by simp only [scanLoop, hF, if_pos hT]⟩
    · by_cases hV : (!isVisible (dataAtD dom a)) = true
      · exact ⟨dom, hs, sEq_refl dom,
          by simp only [scanLoop, hF, if_neg hT, if_pos hV]⟩
      · exact ⟨ensureMiddleClick o (ensureAnchorMiddleClick o dom a) c a,
          if hs.contains ((dataAtD dom a).href.getD "") then hs
            else hs ++ [(dataAtD dom a).href.getD ""],
          sEq_trans (sEq_ensureMiddleClick o _ c a)
            (sEq_ensureAnchorMiddleClick o dom a),
          by simp only [scanLoop, hF, if_neg hT, if_neg hV]⟩

theorem scanLoop_sets_flags (o : String) (dom0 : Dom) :
    ∀ (cs : List (List Nat)) (dom : Dom) (hs : List String), sEq dom dom0 →
    (∀ c ∈ cs, (getAt? dom0 c).isSome) →
    ∀ c ∈ cs, ∀ a, acceptedAnchor dom0 c = some a →
      (dataAtD (scanLoop o dom hs cs).1 c).handledContainer = true ∧
      (dataAtD (scanLoop o dom hs cs).1 a).handledAnchor = true
  | [], _, _, _, _, c, hc, _, _ => absurd hc (List.not_mem_nil c)
  | c0 :: cs, dom, hs, h, hvalid, c, hc, a, hA => by
    rcases List.mem_cons.mp hc with rfl | hc'
    · obtain ⟨hF0, hT0, hV0⟩ := acceptedAnchor_spec dom0 c a hA
      have hfind : findAnchorPath dom c = some a := by
        rw [findAnchorPath_sEq h c, hF0]
      have hTd : postHrefTest ((dataAtD dom a).href.getD "") = true := by
        rw [href_dataAtD_sEq h a]; exact hT0
      have hVd : isVisible (dataAtD dom a) = true := by
        rw [isVisible_dataAtD_sEq h a]; exact hV0
      have hstep : scanLoop o dom hs (c :: cs) =
          scanLoop o (ensureMiddleClick o (ensureAnchorMiddleClick o dom a) c a)
            (if hs.contains ((dataAtD dom a).href.getD "") then hs
              else hs ++ [(dataAtD dom a).href.getD ""]) cs := by
        simp only [scanLoop, hfind, hTd, hVd, Bool.not_true]
        rw [if_neg (by decide), if_neg (by decide)]
      rw [hstep]
      have hvc : (getAt? dom c).isSome := by
        rw [getAt?_isSome_sEq h]
        exact hvalid c (List.mem_cons_self c cs)
      have hva : (getAt? dom a).isSome := by
        rw [getAt?_isSome_sEq h]
        exact findAnchorPath_valid dom0 c a hF0
      constructor
      · apply scanLoop_handledContainer_mono
        apply handledContainer_after_ensureMiddleClick
        rw [getAt?_isSome_sEq (sEq_ensureAnchorMiddleClick o dom a) c]
        exact hvc
      · apply scanLoop_handledAnchor_mono
        apply handledAnchor_ensureMiddleClick_mono
        exact handledAnchor_after_ensureAnchorMiddleClick o dom a hva
    · obtain ⟨dom', hs', hsEq, hrw⟩ := scanLoop_cons_exists o c0 cs dom hs
      rw [hrw]
      exact scanLoop_sets_flags o dom0 cs dom' hs' (sEq_trans hsEq h)
        (fun x hx => hvalid x (List.mem_cons_of_mem c0 hx)) c hc' a hA

theorem scanLoop_id (o : String) (dom0 : Dom) :
    ∀ (cs : List (List Nat)) (dom : Dom) (hs : List String), sEq dom dom0 →
    (∀ c ∈ cs, ∀ a, acceptedAnchor dom0 c = some a →
      (dataAtD dom c).handledContainer = true ∧
      (dataAtD dom a).handledAnchor = true) →
    (scanLoop o dom hs cs).1 = dom
  | [], _, _, _, _ => rfl
  | c :: cs, dom, hs, h, hflags => by
    have tailflags : ∀ c' ∈ cs, ∀ a, acceptedAnchor dom0 c' = some a →
        (dataAtD dom c').handledContainer = true ∧
        (dataAtD dom a).handledAnchor = true :=
      fun c' hc' => hflags c' (List.mem_cons_of_mem c hc')
    cases hF : findAnchorPath dom0 c with
    | none =>
      have hfind : findAnchorPath dom c = none := by
        rw [findAnchorPath_sEq h c, hF]
      have hstep : scanLoop o dom hs (c :: cs) = scanLoop o dom hs cs := by
        simp only [scanLoop, hfind]
      rw [hstep]
      exact scanLoop_id o dom0 cs dom hs h tailflags
    | some a =>
      have hfind : findAnchorPath dom c = some a := by
        rw [findAnchorPath_sEq h c, hF]
      by_cases hT0 : postHrefTest ((dataAtD dom0 a).href.getD "") = true
      · by_cases hV0 : isVisible (dataAtD dom0 a) = true
        · have hacc : acceptedAnchor dom0 c = some a := by
            simp [acceptedAnchor, hF, hT0, hV0]
          obtain ⟨hfc, hfa⟩ := hflags c (List.mem_cons_self c cs) a hacc
          have hTd : postHrefTest ((dataAtD dom a).href.getD "") = true := by
            rw [href_dataAtD_sEq h a]; exact hT0
          have hVd : isVisible (dataAtD dom a) = true := by
            rw [isVisible_dataAtD_sEq h a]; exact hV0
          have hEA : ensureAnchorMiddleClick o dom a = dom := by
            unfold ensureAnchorMiddleClick; rw [if_pos hfa]
          have hEM : ensureMiddleClick o dom c a = dom := by
            unfold ensureMiddleClick; rw [if_pos hfc]
          have hstep : scanLoop o dom hs (c :: cs) =
              scanLoop o dom
                (if hs.contains ((dataAtD dom a).href.getD "") then hs
                  else hs ++ [(dataAtD dom a).href.getD ""]) cs := by
            simp only [scanLoop, hfind, hTd, hVd, Bool.not_true]
            rw [if_neg (by decide), if_neg (by decide), hEA, hEM]
          rw [hstep]
          exact scanLoop_id o dom0 cs dom _ h tailflags
        · have hVd : isVisible (dataAtD dom a) = false := by
            rw [isVisible_dataAtD_sEq h a]
            revert hV0
            cases isVisible (dataAtD dom0 a) <;> simp
          have hstep : scanLoop o dom hs (c :: cs) = scanLoop o dom hs cs := by
            simp only [scanLoop, hfind, hVd, Bool.not_false]
            by_cases hTd : (!postHrefTest ((dataAtD dom a).href.getD "")) = true
            · rw [if_pos hTd]
            · rw [if_neg hTd]
              simp
          rw [hstep]
          exact scanLoop_id o dom0 cs dom hs h tailflags
      · have hTd : postHrefTest ((dataAtD dom a).href.getD "") = false := by
          rw [href_dataAtD_sEq h a]
          revert hT0
          cases postHrefTest ((dataAtD dom0 a).href.getD "") <;> simp
        have hstep : scanLoop o dom hs (c :: cs) = scanLoop o dom hs cs := by
          simp only [scanLoop, hfind, hTd, Bool.not_false]
          simp
        rw [hstep]
        exact scanLoop_id o dom0 cs dom hs h tailflags

/-! ## Counting: the unique-href accumulation measures the set of paths -/

theorem collectPure_eq_foldl (d0 : Dom) :
    ∀ (cs : List (List Nat)) (hs : List String),
    collectPure d0 hs cs = (cs.filterMap (acceptedHref d0)).foldl insertUnique hs
  | [], _ => rfl
  | c :: cs, hs => by
    simp only [collectPure, List.filterMap_cons]
    cases acceptedHref d0 c with
    | none => exact collectPure_eq_foldl d0 cs hs
    | some h =>
      simp only [List.foldl_cons]
      exact collectPure_eq_foldl d0 cs (insertUnique hs h)

theorem mem_insertUnique (hs : List String) (x y : String) :
    y ∈ insertUnique hs x ↔ y ∈ hs ∨ y = x := by
  unfold insertUnique
  by_cases hx : hs.contains x = true
  · rw [if_pos hx]
    have hmem : x ∈ hs := by simpa using hx
    constructor
    · exact Or.inl
    · rintro (hy | rfl)
      · exact hy
      · exact hmem
  · rw [if_neg hx]
    simp

theorem nodup_insertUnique (hs : List String) (x : String) (h : hs.Nodup) :
    (insertUnique hs x).Nodup := by
  unfold insertUnique
  by_cases hx : hs.contains x = true
  · rw [if_pos hx]; exact h
  · rw [if_neg hx]
    have hmem : x ∉ hs := by simpa using hx
    simp [List.nodup_append, h, hmem]

theorem mem_foldl_insertUnique :
    ∀ (L hs : List String) (y : String),
    y ∈ L.foldl insertUnique hs ↔ y ∈ hs ∨ y ∈ L
  | [], hs, y => by simp
  | x :: L, hs, y => by
    simp only [List.foldl_cons, mem_foldl_insertUnique L, mem_insertUnique]
    simp [List.mem_cons]
    tauto

theorem nodup_foldl_insertUnique :
    ∀ (L hs : List String), hs.Nodup → (L.foldl insertUnique hs).Nodup
  | [], _, h => h
  | x :: L, hs, h => by
    simp only [List.foldl_cons]
    exact nodup_foldl_insertUnique L (insertUnique hs x) (nodup_insertUnique hs x h)

theorem collectPure_length (d0 : Dom) (cs : List (List Nat)) :
    (collectPure d0 [] cs).length = (cs.filterMap (acceptedHref d0)).toFinset.card := by
  rw [collectPure_eq_foldl]
  have hnd : ((cs.filterMap (acceptedHref d0)).foldl insertUnique []).Nodup :=
    nodup_foldl_insertUnique _ [] (by simp)
  have hts : ((cs.filterMap (acceptedHref d0)).foldl insertUnique []).toFinset
      = (cs.filterMap (acceptedHref d0)).toFinset := by
    ext y
    simp [mem_foldl_insertUnique]
  rw [← hts, List.toFinset_card_of_nodup hnd]

/-! ## Observer state bookkeeping -/

theorem sendCount_lastReported (st : ObserverState) (c : Int) :
    (sendCount st c).1.lastReportedCount = c := by
  unfold sendCount
  split
  · next hEq => exact eq_of_beq hEq
  · rfl

theorem sendCount_pending (st : ObserverState) (c : Int) :
    (sendCount st c).1.scanTimerPending = st.scanTimerPending := by
  unfold sendCount
  split <;> rfl

theorem sendCount_self (st : ObserverState) (c : Int)
    (h : st.lastReportedCount = c) : sendCount st c = (st, none) := by
  unfold sendCount
  rw [if_pos (by simp [h])]

theorem sendCount_msg (st : ObserverState) (c : Int) :
    (sendCount st c).2 = if st.lastReportedCount = c then none else some c := by
  unfold sendCount
  by_cases h : st.lastReportedCount = c
  · rw [if_pos (by simp [h]), if_pos h]
  · rw [if_neg (by simpa using h), if_neg h]

theorem clearPending_eta (st : ObserverState) (h : st.scanTimerPending = false) :
    { st with scanTimerPending := false } = st := by
  cases st with
  | mk l p =>
    simp only at h
    subst h
    rfl

/-! ## The scan routine, characterized -/

theorem scanAndBind_off_route (loc : Location) (st : ObserverState) (dom : Dom)
    (h : isOnSavedPage loc = false) :
    scanAndBind loc st dom =
      ⟨(sendCount { st with scanTimerPending := false } 0).1, dom,
        (sendCount { st with scanTimerPending := false } 0).2⟩ := by
  unfold scanAndBind
  rw [h]
  rfl

theorem scanAndBind_on_route (loc : Location) (st : ObserverState) (dom : Dom)
    (h : isOnSavedPage loc = true) :
    scanAndBind loc st dom =
      ⟨(sendCount { st with scanTimerPending := false }
          ((collectPure dom [] (topLevelContainerPaths dom)).length : Int)).1,
        (scanLoop loc.origin dom [] (topLevelContainerPaths dom)).1,
        (sendCount { st with scanTimerPending := false }
          ((collectPure dom [] (topLevelContainerPaths dom)).length : Int)).2⟩ := by
  unfold scanAndBind
  rw [h]
  simp only [Bool.not_true]
  rw [if_neg (by decide)]
  rw [(scanLoop_spec loc.origin dom (topLevelContainerPaths dom) dom [] (sEq_refl dom)).2]

/-- C1: Scan idempotence.  For any fixed location, observer state and DOM
snapshot, a `scanAndBind` pass is a fixpoint: running it again starting
from the state and DOM the first pass produced changes neither of them,
reports the same count (the state, including `lastReportedCount`, is
unchanged), attaches nothing (the DOM is returned unchanged, so no
duplicate listeners), and sends no message.  Non-throwing is inherent in
the embedding: every exception site of the source (`isVisible`, URL
resolution, message send) is caught in the source and modelled totally. -/
theorem c1_scan_idempotent (loc : Location) (st : ObserverState) (dom : Dom) :
    scanAndBind loc (scanAndBind loc st dom).st (scanAndBind loc st dom).dom =
      ⟨(scanAndBind loc st dom).st, (scanAndBind loc st dom).dom, none⟩ := by
  cases hroute : isOnSavedPage loc with
  | false =>
    rw [scanAndBind_off_route loc st dom hroute]
    rw [scanAndBind_off_route loc _ dom hroute]
    have hp : (sendCount { st with scanTimerPending := false } 0).1.scanTimerPending
        = false := by
      rw [sendCount_pending]
    rw [clearPending_eta _ hp]
    rw [sendCount_self _ 0 (sendCount_lastReported _ 0)]
  | true =>
    have hs1 : sEq (scanLoop loc.origin dom [] (topLevelContainerPaths dom)).1 dom :=
      (scanLoop_spec loc.origin dom (topLevelContainerPaths dom) dom []
        (sEq_refl dom)).1
    have htop : topLevelContainerPaths
        (scanLoop loc.origin dom [] (topLevelContainerPaths dom)).1
        = topLevelContainerPaths dom := topLevelContainerPaths_sEq hs1
    have hcp : collectPure (scanLoop loc.origin dom [] (topLevelContainerPaths dom)).1 []
          (topLevelContainerPaths dom)
        = collectPure dom [] (topLevelContainerPaths dom) :=
      collectPure_sEq hs1 (topLevelContainerPaths dom) []
    have hflags := scanLoop_sets_flags loc.origin dom (topLevelContainerPaths dom)
      dom [] (sEq_refl dom) (fun c hc => topLevel_valid dom c hc)
    have hid : (scanLoop loc.origin
          (scanLoop loc.origin dom [] (topLevelContainerPaths dom)).1 []
          (topLevelContainerPaths dom)).1
        = (scanLoop loc.origin dom [] (topLevelContainerPaths dom)).1 :=
      scanLoop_id loc.origin dom (topLevelContainerPaths dom) _ [] hs1
        (fun c hc a hA => hflags c hc a hA)
    rw [scanAndBind_on_route loc st dom hroute]
    rw [scanAndBind_on_route loc _ _ hroute]
    rw [htop, hcp, hid]
    have hp : (sendCount { st with scanTimerPending := false }
        ((collectPure dom [] (topLevelContainerPaths dom)).length : Int)).1.scanTimerPending
        = false := by
      rw [sendCount_pending]
    rw [clearPending_eta _ hp]
    rw [sendCount_self _ _ (sendCount_lastReported _ _)]

/-- C2: Deduplication.  On the monitored route, the count `scanAndBind`
records (and reports) equals the cardinality of the set of resource paths
accepted in the pass — `acceptedHrefList` lists one href per accepting
top-level container, duplicates included, and the reported count is the
size of its deduplicated set, so N containers resolving to the same path
contribute exactly 1. -/
theorem c2_dedup_count (loc : Location) (st : ObserverState) (dom : Dom)
    (h : isOnSavedPage loc = true) :
    (scanAndBind loc st dom).st.lastReportedCount
      = ((acceptedHrefList dom).toFinset.card : Int) := by
  rw [scanAndBind_on_route loc st dom h]
  show (sendCount _ _).1.lastReportedCount = _
  rw [sendCount_lastReported, collectPure_length]
  rfl

/-- C2 witness: two cards pointing at the same post are counted once. -/
theorem c2_dedup_count_witness :
    isOnSavedPage savedLoc = true ∧
      (scanAndBind savedLoc {} dupCardDom).st.lastReportedCount
        = ((acceptedHrefList dupCardDom).toFinset.card : Int) ∧
      (acceptedHrefList dupCardDom).toFinset.card = 1 :=
  ⟨by decide, c2_dedup_count savedLoc {} dupCardDom (by decide), by decide⟩

/-- C3: Nesting exclusion.  Every container the scan enumerates as
top-level has no proper ancestor matching the container selector (so a
card nested in another card is excluded), and on the concrete document
with a quoted card embedded in a top-level card the reported count is 1,
not 2. -/
theorem c3_nesting_exclusion :
    (∀ (dom : Dom) (p : List Nat), p ∈ topLevelContainerPaths dom →
      properAncestorIsContainer dom p = false) ∧
    (scanAndBind savedLoc {} nestedCardDom).st.lastReportedCount = 1 := by
  constructor
  · intro dom p hp
    have h2 := (List.mem_filter.mp hp).2
    rcases Bool.and_eq_true_iff.mp h2 with ⟨_, h3⟩
    simpa using h3
  · decide

/-- C3 witness: the general exclusion applied to the concrete nested
document's one top-level container. -/
theorem c3_nesting_exclusion_witness :
    properAncestorIsContainer nestedCardDom [0] = false ∧
      (scanAndBind savedLoc {} nestedCardDom).st.lastReportedCount = 1 :=
  ⟨c3_nesting_exclusion.1 nestedCardDom [0] (by decide), c3_nesting_exclusion.2⟩

/-- C4: Route gating.  Off the monitored route, `scanAndBind` leaves the
DOM untouched (no containers enumerated, no handlers), records a report of 0,
and the message it sends (when the previous report was not already 0) is
exactly 0. -/
theorem c4_route_gating (loc : Location) (st : ObserverState) (dom : Dom)
    (h : isOnSavedPage loc = false) :
    (scanAndBind loc st dom).dom = dom ∧
      (scanAndBind loc st dom).st.lastReportedCount = 0 ∧
      (scanAndBind loc st dom).msg
        = (if st.lastReportedCount = 0 then none else some 0) := by
  rw [scanAndBind_off_route loc st dom h]
  refine ⟨rfl, sendCount_lastReported _ 0, ?_⟩
  show (sendCount _ 0).2 = _
  rw [sendCount_msg]

/-- C4 witness: leaving `/saved` with a previously reported count of 5,
the next pass reports exactly 0 and touches nothing. -/
theorem c4_route_gating_witness :
    isOnSavedPage (Location.mk "bsky.app" "/feed") = false ∧
      ((scanAndBind (Location.mk "bsky.app" "/feed") (ObserverState.mk 5 false)
          twoCardDom).dom = twoCardDom ∧
        (scanAndBind (Location.mk "bsky.app" "/feed") (ObserverState.mk 5 false)
          twoCardDom).st.lastReportedCount = 0 ∧
        (scanAndBind (Location.mk "bsky.app" "/feed") (ObserverState.mk 5 false)
          twoCardDom).msg
          = (if (ObserverState.mk 5 false).lastReportedCount = 0 then none
              else some 0)) :=
  ⟨by decide, c4_route_gating _ _ _ (by decide)⟩

/-- C9: Non-middle-button transparency.  For any event whose button is not
the middle button, both installed handlers return without preventing
default, stopping propagation, or opening a window: their effect list is
empty. -/
theorem c9_non_middle_transparent (ev : MouseEvt) (url : String)
    (h : ev.button ≠ MIDDLE_BUTTON) :
    preventMiddleClickDefaults ev = [] ∧ handleAuxClick url ev = [] := by
  unfold preventMiddleClickDefaults handleAuxClick
  rw [if_pos h, if_pos h]
  exact ⟨rfl, rfl⟩

/-- C9 witness: a left-button (0) event produces no effects. -/
theorem c9_non_middle_transparent_witness :
    (MouseEvt.mk 0 true).button ≠ MIDDLE_BUTTON ∧
      (preventMiddleClickDefaults (MouseEvt.mk 0 true) = [] ∧
        handleAuxClick "https://bsky.app/x" (MouseEvt.mk 0 true) = []) :=
  ⟨by decide, c9_non_middle_transparent (MouseEvt.mk 0 true) "https://bsky.app/x"
    (by decide)⟩

/-- C10: Visibility fails open.  `isVisible` is total by construction; when
the style computation throws it returns `true`, and when the style is
readable and non-hiding but the bounding-box computation throws it also
returns `true`; on the concrete document whose card and anchor both throw,
the pass counts the card and installs both handler sets. -/
theorem c10_isVisible_fails_open :
    (∀ e : ElemData, e.style = .error () → isVisible e = true) ∧
    (∀ (e : ElemData) (s : StyleInfo), e.style = .ok s →
      (s.display == "none" || s.visibility == "hidden"
        || jsNumIsZero (s.opacity.getD "1")) = false →
      e.rect = .error () → isVisible e = true) ∧
    (scanAndBind savedLoc {} throwingDom).st.lastReportedCount = 1 ∧
    (dataAtD (scanAndBind savedLoc {} throwingDom).dom [0]).handledContainer
      = true ∧
    (dataAtD (scanAndBind savedLoc {} throwingDom).dom [0, 0]).handledAnchor
      = true := by
  refine ⟨?_, ?_, by decide, by decide, by decide⟩
  · intro e he
    unfold isVisible
    rw [he]
  · intro e s hs hc hr
    unfold isVisible
    rw [hs, hr]
    simp [hc]

/-- C10 witness: the throwing card element is treated as visible and the
throwing document is counted. -/
theorem c10_isVisible_fails_open_witness :
    isVisible { cardElem with style := Except.error (), rect := Except.error () }
        = true ∧
      (scanAndBind savedLoc {} throwingDom).st.lastReportedCount = 1 :=
  ⟨c10_isVisible_fails_open.1 _ rfl, c10_isVisible_fails_open.2.2.1⟩

/-! ## Registry map lemmas -/

theorem mapGet_mapSet_self : ∀ (m : List (Int × Int)) (k v : Int),
    mapGet (mapSet m k v) k = some v
  | [], k, v => by simp [mapSet, mapGet]
  | (k', v') :: t, k, v => by
    unfold mapSet
    by_cases h : (k' == k) = true
    · rw [if_pos h]
      unfold mapGet
      rw [if_pos (by simp)]
    · rw [if_neg h]
      unfold mapGet
      rw [if_neg h]
      exact mapGet_mapSet_self t k v

theorem mapGet_mapSet_ne : ∀ (m : List (Int × Int)) (k k' v : Int), k' ≠ k →
    mapGet (mapSet m k v) k' = mapGet m k'
  | [], k, k', v, h => by
    simp [mapSet, mapGet]
    intro hh
    exact absurd hh.symm h
  | (k0, v0) :: t, k, k', v, h => by
    unfold mapSet
    by_cases h0 : (k0 == k) = true
    · rw [if_pos h0]
      unfold mapGet
      rw [if_neg (by simpa using fun hh => h hh.symm), if_neg ?hne]
      case hne =>
        have hk : k0 = k := by simpa using h0
        subst hk
        simpa using fun hh => h hh.symm
    · rw [if_neg h0]
      unfold mapGet
      by_cases h1 : (k0 == k') = true
      · rw [if_pos h1, if_pos h1]
      · rw [if_neg h1, if_neg h1]
        exact mapGet_mapSet_ne t k k' v h

/-- C5 counterexample: the label the Registry renders for a count of 150
is the string `"99"`, not `"99+"`, while the stored count remains 150. -/
theorem c5_label_cap_counterexample :
    limitCountLabel 150 ≠ "99+" ∧ limitCountLabel 150 = "99" ∧
      mapGet ((setTabCount ⟨[]⟩ 1 150).1.tabCounts) 1 = some 150 := by
  refine ⟨?_, ?_, ?_⟩ <;> decide

/-- C5 (amended): the label is `"99"` when the count exceeds 99, the
count's decimal string for 1..99, and empty at 0; the stored per-tab count
is never truncated (`setTabCount` stores the exact count) and the applied
indicator carries `limitCountLabel count` as its label. -/
theorem c5_label_cap_amended (count : Int) (r : Registry) (t : Int) :
    (count > 99 → limitCountLabel count = "99") ∧
    (1 ≤ count → count ≤ 99 → limitCountLabel count = toString count) ∧
    limitCountLabel 0 = "" ∧
    mapGet ((setTabCount r t count).1.tabCounts) t = some count ∧
    (setTabCount r t count).2.label = limitCountLabel count := by
  refine ⟨?_, ?_, by decide, mapGet_mapSet_self r.tabCounts t count, rfl⟩
  · intro h
    unfold limitCountLabel MAX_SHOWN_COUNT
    rw [if_pos (by exact_mod_cast h)]
    decide
  · intro h1 h2
    unfold limitCountLabel MAX_SHOWN_COUNT
    rw [if_neg (by omega), if_pos (by omega)]

/-- C5 amended witness: a report of 150 shows "99" and stores 150. -/
theorem c5_label_cap_amended_witness :
    (150 : Int) > 99 ∧ limitCountLabel 150 = "99" ∧
      mapGet ((setTabCount ⟨[]⟩ 1 150).1.tabCounts) 1 = some 150 :=
  ⟨by decide, (c5_label_cap_amended 150 ⟨[]⟩ 1).1 (by decide),
    (c5_label_cap_amended 150 ⟨[]⟩ 1).2.2.2.1⟩

theorem scheduleScan_lastReported (st : ObserverState) :
    (scheduleScan st).lastReportedCount = st.lastReportedCount := by
  unfold scheduleScan
  split <;> rfl

/-- C6 counterexample: after a detected route change (`popstate`) the
last-reported memory still holds 2; the debounced scan then computes 2 on
the two-card document and sends nothing, although the claim requires the
first scan after a route change to send its count even when unchanged. -/
theorem c6_invalidation_counterexample :
    (scanAndBind savedLoc (observerTrigger .popstate ⟨2, false⟩) twoCardDom).msg
        = none ∧
      (scanAndBind savedLoc (observerTrigger .popstate ⟨2, false⟩)
        twoCardDom).st.lastReportedCount = 2 := by
  constructor <;> decide

/-- C6 (amended): the Observer does suppress a count equal to its last
report, but no route-change trigger invalidates the last-reported memory —
every `initObservers` trigger only schedules a debounced scan and preserves
`lastReportedCount`; the only invalidation is the `DOMContentLoaded`
bootstrap callback, which resets it to -1. -/
theorem c6_change_suppression_amended (st : ObserverState) (count : Int)
    (ev : TriggerEvent) :
    (st.lastReportedCount = count → sendCount st count = (st, none)) ∧
    (observerTrigger ev st).lastReportedCount = st.lastReportedCount ∧
    (domContentLoadedCallback st).lastReportedCount = -1 := by
  refine ⟨sendCount_self st count, ?_, ?_⟩
  · cases ev <;> simp [observerTrigger, scheduleScan_lastReported]
  · unfold domContentLoadedCallback
    rw [scheduleScan_lastReported]

/-- C6 amended witness: suppression and trigger transparency at a concrete
state. -/
theorem c6_change_suppression_amended_witness :
    sendCount ⟨3, false⟩ 3 = (⟨3, false⟩, none) ∧
      (observerTrigger .popstate ⟨3, false⟩).lastReportedCount = 3 :=
  ⟨(c6_change_suppression_amended ⟨3, false⟩ 3 .popstate).1 rfl,
    (c6_change_suppression_amended ⟨3, false⟩ 3 .popstate).2.1⟩

/-- C7 counterexample: activating a tab whose URL is off the saved route
resets its stored count — with tab 1 storing 5 and URL
`https://example.com/`, after `onActivated` the stored count is 0, not the
unchanged 5 the claim requires. -/
theorem c7_onActivated_counterexample :
    mapGet (onActivated ⟨[(1, 5)]⟩ 1 (some (some "https://example.com/"))).1.tabCounts 1
        = some 0 ∧
      mapGet (Registry.mk [(1, 5)]).tabCounts 1 = some 5 ∧ (0 : Int) ≠ 5 := by
  refine ⟨?_, ?_, ?_⟩ <;> decide

/-- C7 (amended): on activation the Registry re-applies the stored count
and leaves every record unchanged only when the tab's URL matches the
saved route; when it does not match, it resets that tab's record to 0 and
applies the disabled indicator.  Other tabs' records are unchanged in
either case, and a failed tab lookup changes nothing. -/
theorem c7_onActivated_amended (r : Registry) (tabId : Int) (url : String) :
    (isSavedUrl url = true →
      onActivated r tabId (some (some url))
        = (r, some (applyIcon tabId ((mapGet r.tabCounts tabId).getD 0)))) ∧
    (isSavedUrl url = false →
      (onActivated r tabId (some (some url))).1.tabCounts
          = mapSet r.tabCounts tabId 0 ∧
        (onActivated r tabId (some (some url))).2 = some (applyIcon tabId 0)) ∧
    (∀ t', t' ≠ tabId →
      mapGet (onActivated r tabId (some (some url))).1.tabCounts t'
        = mapGet r.tabCounts t') ∧
    onActivated r tabId none = (r, none) := by
  refine ⟨?_, ?_, ?_, rfl⟩
  · intro h
    simp [onActivated, h]
  · intro h
    simp [onActivated, resetTab, h]
  · intro t' ht'
    by_cases h : isSavedUrl url = true
    · simp [onActivated, h]
    · simp [onActivated, resetTab, h]
      exact mapGet_mapSet_ne r.tabCounts tabId t' 0 ht'

/-- C7 amended witness: on-route activation re-asserts the stored 5 and
leaves the record; the other-tab record is untouched by an off-route
activation of tab 2. -/
theorem c7_onActivated_amended_witness :
    isSavedUrl "https://bsky.app/saved" = true ∧
      onActivated ⟨[(1, 5)]⟩ 1 (some (some "https://bsky.app/saved"))
        = (⟨[(1, 5)]⟩,
            some (applyIcon 1 ((mapGet (Registry.mk [(1, 5)]).tabCounts 1).getD 0))) ∧
      mapGet (onActivated ⟨[(1, 5)]⟩ 2 (some (some "https://example.com/"))).1.tabCounts 1
        = mapGet (Registry.mk [(1, 5)]).tabCounts 1 :=
  ⟨by decide,
    (c7_onActivated_amended ⟨[(1, 5)]⟩ 1 "https://bsky.app/saved").1 (by decide),
    (c7_onActivated_amended ⟨[(1, 5)]⟩ 2 "https://example.com/").2.2.1 1 (by decide)⟩

/-- C8: the message listener.  With a truthy originating tab id and type
`FOUND_COUNT`, the Registry stores the coerced count (non-finite or
missing coerce to 0), applies the indicator for that tab, and the derived
state is enabled exactly when the stored count is positive; a message with
no resolvable sender tab, a missing message, or another type leaves the
registry unchanged and applies nothing.  (JS truthiness makes a sender tab
id of 0 unresolvable as well.) -/
theorem c8_onMessage_spec (r : Registry) (t : Int) (m : FoundMsg) :
    (t ≠ 0 → m.type = "FOUND_COUNT" →
      onMessage r (some t) (some m)
        = ({ tabCounts := mapSet r.tabCounts t (coerceCount m.count) },
            some (applyIcon t (coerceCount m.count)))) ∧
    coerceCount .notFinite = 0 ∧
    (∀ c : Int, (applyIcon t c).state
        = (if c > 0 then .enabled else .disabled)) ∧
    (∀ msg, onMessage r none msg = (r, none)) ∧
    onMessage r (some t) none = (r, none) ∧
    (m.type ≠ "FOUND_COUNT" → onMessage r (some t) (some m) = (r, none)) := by
  refine ⟨?_, rfl, fun c => rfl, fun msg => rfl, rfl, ?_⟩
  · intro ht htype
    simp [onMessage, setTabCount, ht, htype]
  · intro htype
    by_cases ht : t = 0
    · simp [onMessage, ht]
    · simp [onMessage, ht, htype]

/-- C8 witness: a finite count of 3 from tab 7 is stored and applied. -/
theorem c8_onMessage_spec_witness :
    (7 : Int) ≠ 0 ∧
      onMessage ⟨[]⟩ (some 7) (some ⟨"FOUND_COUNT", .fin 3⟩)
        = ({ tabCounts := mapSet (Registry.mk []).tabCounts 7
              (coerceCount (.fin 3)) },
            some (applyIcon 7 (coerceCount (.fin 3)))) :=
  ⟨by decide, (c8_onMessage_spec ⟨[]⟩ 7 ⟨"FOUND_COUNT", .fin 3⟩).1 (by decide) rfl⟩
